import Mathlib

set_option maxRecDepth 8000

/-!
A shallow embedding of the configuration parser `src/parse.rs` of swhkd.

Rust strings are modelled as lists of characters, `u32` line numbers as `Nat`
(line numbers here are small; overflow is irrelevant to the properties below),
the filesystem as a finite association list from paths to file texts, and
fallible code as `Except`/`Option`.  A result of `none` marks a Rust panic
(an `unwrap` or an out-of-bounds index).  The unbounded `while` loop of
`Config::load_and_merge` is modelled with an explicit iteration budget
(`fuel`); running out of fuel yields `none`, so a proof that some concrete
fuel always suffices is a proof that the source loop terminates.
-/

deriving instance DecidableEq for Except

/-- Rust `&str` / `String`, modelled as a list of characters. -/
abbrev RStr := List Char

/-- Splitting a string at every character satisfying `p`, keeping empty
fields, as Rust `str::split` does.  The result is always non-empty. -/
def splitBy (p : Char → Bool) : RStr → List RStr
  | [] => [[]]
  | c :: rest =>
    if p c then [] :: splitBy p rest
    else
      match splitBy p rest with
      | [] => [[c]]
      | t :: ts => (c :: t) :: ts

/-- Rust `str::split(sep)` for a character separator. -/
def splitChar (sep : Char) (s : RStr) : List RStr :=
  splitBy (fun c => c == sep) s

/-- Rust `str::trim`: strip whitespace from both ends. -/
def trimStr (s : RStr) : RStr :=
  ((s.dropWhile Char.isWhitespace).reverse.dropWhile Char.isWhitespace).reverse

/-- Rust `str::starts_with(c)` for a single-character pattern. -/
def startsWithChar (c : Char) (s : RStr) : Bool :=
  match s with
  | [] => false
  | x :: _ => x == c

/-- Rust `str::starts_with(p)` for a string pattern. -/
def startsWithSeq (p : RStr) (s : RStr) : Bool :=
  decide (s.take p.length = p)

/-- Rust `str::ends_with(c)` for a single-character pattern. -/
def endsWithChar (c : Char) (s : RStr) : Bool :=
  match s.getLast? with
  | some x => x == c
  | none => false

/-- Rust `str::strip_suffix(c)`: drop a final character when present. -/
def stripSuffixChar (c : Char) (s : RStr) : Option RStr :=
  if endsWithChar c s then some s.dropLast else none

/-- Rust `str::to_lowercase`.  The source only compares against ASCII table
entries, so the ASCII lowering of `Char.toLower` is the relevant behaviour. -/
def toLowerStr (s : RStr) : RStr := s.map Char.toLower

/-- Strip one trailing carriage return, as Rust `str::lines` does per line. -/
def stripCR (s : RStr) : RStr :=
  if endsWithChar '\r' s then s.dropLast else s

/-- Rust `str::lines`: split on newline, drop the final empty segment
produced by a trailing newline (or by the empty string), strip one trailing
carriage return from each line. -/
def rustLines (s : RStr) : List RStr :=
  let parts := splitChar '\n' s
  let parts := if parts.getLast? = some [] then parts.dropLast else parts
  parts.map stripCR

/-- `IMPORT_STATEMENT` of parse.rs. -/
def IMPORT_STATEMENT : RStr := "include".toList

/-- `COMMENT_SYMBOL` of parse.rs. -/
def COMMENT_SYMBOL : Char := '#'

/-- `enum LineType` of parse.rs. -/
inductive LineType where
  | Key
  | Command
  | Statement
  | Other
deriving DecidableEq

/-- `struct Line` of parse.rs. -/
structure Line where
  content : RStr
  linetype : LineType
  linenumber : Nat
deriving DecidableEq

/-- `Line::mark_line` of parse.rs. -/
def Line.mark_line (line : RStr) : LineType :=
  if (trimStr line).isEmpty || startsWithChar COMMENT_SYMBOL (trimStr line) then
    .Other
  else if startsWithChar ' ' line || startsWithChar '\t' line then
    .Command
  else
    .Key

/-- `Line::from_str` of parse.rs. -/
def Line.from_str (content : RStr) (linenumber : Nat) : Line :=
  { content := content, linetype := Line.mark_line content, linenumber := linenumber }

/-- `Line::trim` of parse.rs. -/
def Line.trim (l : Line) : Line :=
  { content := trimStr l.content, linetype := l.linetype, linenumber := l.linenumber }

/-- `Line::is_to_join` of parse.rs. -/
def Line.is_to_join (l : Line) : Bool :=
  endsWithChar '\\' l.content

/-- `Line::join_line` of parse.rs; `none` models the panic of the
`strip_suffix(..).unwrap()` when the content has no trailing backslash. -/
def Line.join_line (self other : Line) : Option Line :=
  if self.linetype = other.linetype then
    (stripSuffixChar '\\' self.content).map
      (fun s => { content := s ++ other.content, linetype := self.linetype,
                  linenumber := self.linenumber })
  else
    (stripSuffixChar '\\' self.content).map
      (fun s => { content := s, linetype := self.linetype,
                  linenumber := self.linenumber })

/-- The loop body of `load_to_lines`: the counter starts at 0 and is
incremented before each line is classified, so numbering is 1-based. -/
def load_to_lines_go : List RStr → Nat → List Line
  | [], _ => []
  | l :: rest, linenumber =>
    let current_line := Line.from_str l (linenumber + 1)
    if current_line.linetype = .Other then load_to_lines_go rest (linenumber + 1)
    else current_line :: load_to_lines_go rest (linenumber + 1)

/-- `load_to_lines` of parse.rs. -/
def load_to_lines (content : RStr) : List Line :=
  load_to_lines_go (rustLines content) 0

/-- The loop of `join_lines`, walking the remaining lines while holding the
pending `prev_line` and the already emitted lines. -/
def join_lines_go : List Line → Line → List Line → Option (List Line)
  | [], prev_line, acc => some (acc ++ [prev_line])
  | line :: rest, prev_line, acc =>
    if prev_line.is_to_join then
      match prev_line.join_line line.trim with
      | none => none
      | some p => join_lines_go rest p acc
    else
      join_lines_go rest line.trim (acc ++ [prev_line])

/-- `join_lines` of parse.rs; on the empty input the source evaluates
`lines[0]`, which panics — modelled as `none`. -/
def join_lines (lines : List Line) : Option (List Line) :=
  match lines with
  | [] => none
  | l0 :: rest => join_lines_go rest l0.trim []

/-- `enum Modifier` of parse.rs. -/
inductive Modifier where
  | Super
  | Alt
  | Control
  | Shift
deriving DecidableEq

/-- The key-code enumeration: the `evdev::Key` values used by the keysym
table of parse.rs. -/
inductive Key where
  | KEY_Q | KEY_W | KEY_E | KEY_R | KEY_T | KEY_Y | KEY_U | KEY_I | KEY_O | KEY_P
  | KEY_A | KEY_S | KEY_D | KEY_F | KEY_G | KEY_H | KEY_J | KEY_K | KEY_L
  | KEY_Z | KEY_X | KEY_C | KEY_V | KEY_B | KEY_N | KEY_M
  | KEY_1 | KEY_2 | KEY_3 | KEY_4 | KEY_5 | KEY_6 | KEY_7 | KEY_8 | KEY_9 | KEY_0
  | KEY_ESC | KEY_BACKSPACE | KEY_ENTER | KEY_TAB | KEY_SPACE | KEY_KPPLUS
  | KEY_MINUS | KEY_EQUAL | KEY_GRAVE | KEY_SYSRQ
  | KEY_VOLUMEUP | KEY_VOLUMEDOWN | KEY_MUTE
  | KEY_BRIGHTNESSUP | KEY_BRIGHTNESSDOWN
  | KEY_PLAYPAUSE | KEY_PREVIOUSSONG | KEY_NEXTSONG | KEY_STOP | KEY_MEDIA
  | KEY_COMMA | KEY_DOT | KEY_SLASH | KEY_QUESTION | KEY_BACKSLASH
  | KEY_LEFTBRACE | KEY_RIGHTBRACE | KEY_SEMICOLON | KEY_APOSTROPHE
  | KEY_LEFT | KEY_RIGHT | KEY_UP | KEY_DOWN
  | KEY_PAUSE | KEY_HOME | KEY_DELETE | KEY_INSERT | KEY_END
  | KEY_PAGEDOWN | KEY_PAGEUP
  | KEY_F1 | KEY_F2 | KEY_F3 | KEY_F4 | KEY_F5 | KEY_F6 | KEY_F7 | KEY_F8
  | KEY_F9 | KEY_F10 | KEY_F11 | KEY_F12 | KEY_F13 | KEY_F14 | KEY_F15
  | KEY_F16 | KEY_F17 | KEY_F18 | KEY_F19 | KEY_F20 | KEY_F21 | KEY_F22
  | KEY_F23 | KEY_F24
deriving DecidableEq

/-- `match_modifier` of parse.rs. -/
def match_modifier (modifier : RStr) : Option Modifier :=
  let m := toLowerStr modifier
  if m = "super".toList then some .Super
  else if m = "mod4".toList then some .Super
  else if m = "alt".toList then some .Alt
  else if m = "mod1".toList then some .Alt
  else if m = "control".toList then some .Control
  else if m = "ctrl".toList then some .Control
  else if m = "shift".toList then some .Shift
  else none

/-- `match_keysym` of parse.rs: the full alias table.  The entry for the
apostrophe key is written with `Char.ofNat 39` (the apostrophe character). -/
def match_keysym (keysym : RStr) : Option Key :=
  let k := toLowerStr keysym
  if k = "q".toList then some .KEY_Q
  else if k = "w".toList then some .KEY_W
  else if k = "e".toList then some .KEY_E
  else if k = "r".toList then some .KEY_R
  else if k = "t".toList then some .KEY_T
  else if k = "y".toList then some .KEY_Y
  else if k = "u".toList then some .KEY_U
  else if k = "i".toList then some .KEY_I
  else if k = "o".toList then some .KEY_O
  else if k = "p".toList then some .KEY_P
  else if k = "a".toList then some .KEY_A
  else if k = "s".toList then some .KEY_S
  else if k = "d".toList then some .KEY_D
  else if k = "f".toList then some .KEY_F
  else if k = "g".toList then some .KEY_G
  else if k = "h".toList then some .KEY_H
  else if k = "j".toList then some .KEY_J
  else if k = "k".toList then some .KEY_K
  else if k = "l".toList then some .KEY_L
  else if k = "z".toList then some .KEY_Z
  else if k = "x".toList then some .KEY_X
  else if k = "c".toList then some .KEY_C
  else if k = "v".toList then some .KEY_V
  else if k = "b".toList then some .KEY_B
  else if k = "n".toList then some .KEY_N
  else if k = "m".toList then some .KEY_M
  else if k = "1".toList then some .KEY_1
  else if k = "2".toList then some .KEY_2
  else if k = "3".toList then some .KEY_3
  else if k = "4".toList then some .KEY_4
  else if k = "5".toList then some .KEY_5
  else if k = "6".toList then some .KEY_6
  else if k = "7".toList then some .KEY_7
  else if k = "8".toList then some .KEY_8
  else if k = "9".toList then some .KEY_9
  else if k = "0".toList then some .KEY_0
  else if k = "escape".toList then some .KEY_ESC
  else if k = "backspace".toList then some .KEY_BACKSPACE
  else if k = "return".toList then some .KEY_ENTER
  else if k = "enter".toList then some .KEY_ENTER
  else if k = "tab".toList then some .KEY_TAB
  else if k = "space".toList then some .KEY_SPACE
  else if k = "plus".toList then some .KEY_KPPLUS
  else if k = "minus".toList then some .KEY_MINUS
  else if k = "-".toList then some .KEY_MINUS
  else if k = "equal".toList then some .KEY_EQUAL
  else if k = "=".toList then some .KEY_EQUAL
  else if k = "grave".toList then some .KEY_GRAVE
  else if k = "`".toList then some .KEY_GRAVE
  else if k = "print".toList then some .KEY_SYSRQ
  else if k = "volumeup".toList then some .KEY_VOLUMEUP
  else if k = "xf86audioraisevolume".toList then some .KEY_VOLUMEUP
  else if k = "volumedown".toList then some .KEY_VOLUMEDOWN
  else if k = "xf86audiolowervolume".toList then some .KEY_VOLUMEDOWN
  else if k = "mute".toList then some .KEY_MUTE
  else if k = "xf86audiomute".toList then some .KEY_MUTE
  else if k = "brightnessup".toList then some .KEY_BRIGHTNESSUP
  else if k = "xf86monbrightnessup".toList then some .KEY_BRIGHTNESSUP
  else if k = "brightnessdown".toList then some .KEY_BRIGHTNESSDOWN
  else if k = "xf86monbrightnessdown".toList then some .KEY_BRIGHTNESSDOWN
  else if k = "xf86audioplay".toList then some .KEY_PLAYPAUSE
  else if k = "xf86audioprev".toList then some .KEY_PREVIOUSSONG
  else if k = "xf86audionext".toList then some .KEY_NEXTSONG
  else if k = "xf86audiostop".toList then some .KEY_STOP
  else if k = "xf86audiomedia".toList then some .KEY_MEDIA
  else if k = ",".toList then some .KEY_COMMA
  else if k = "comma".toList then some .KEY_COMMA
  else if k = ".".toList then some .KEY_DOT
  else if k = "dot".toList then some .KEY_DOT
  else if k = "period".toList then some .KEY_DOT
  else if k = "/".toList then some .KEY_SLASH
  else if k = "question".toList then some .KEY_QUESTION
  else if k = "slash".toList then some .KEY_SLASH
  else if k = "backslash".toList then some .KEY_BACKSLASH
  else if k = "leftbrace".toList then some .KEY_LEFTBRACE
  else if k = "[".toList then some .KEY_LEFTBRACE
  else if k = "bracketleft".toList then some .KEY_LEFTBRACE
  else if k = "rightbrace".toList then some .KEY_RIGHTBRACE
  else if k = "]".toList then some .KEY_RIGHTBRACE
  else if k = "bracketright".toList then some .KEY_RIGHTBRACE
  else if k = ";".toList then some .KEY_SEMICOLON
  else if k = "semicolon".toList then some .KEY_SEMICOLON
  else if k = [Char.ofNat 39] then some .KEY_APOSTROPHE
  else if k = "apostrophe".toList then some .KEY_APOSTROPHE
  else if k = "left".toList then some .KEY_LEFT
  else if k = "right".toList then some .KEY_RIGHT
  else if k = "up".toList then some .KEY_UP
  else if k = "down".toList then some .KEY_DOWN
  else if k = "pause".toList then some .KEY_PAUSE
  else if k = "home".toList then some .KEY_HOME
  else if k = "delete".toList then some .KEY_DELETE
  else if k = "insert".toList then some .KEY_INSERT
  else if k = "end".toList then some .KEY_END
  else if k = "prior".toList then some .KEY_PAGEDOWN
  else if k = "next".toList then some .KEY_PAGEUP
  else if k = "pagedown".toList then some .KEY_PAGEDOWN
  else if k = "pageup".toList then some .KEY_PAGEUP
  else if k = "f1".toList then some .KEY_F1
  else if k = "f2".toList then some .KEY_F2
  else if k = "f3".toList then some .KEY_F3
  else if k = "f4".toList then some .KEY_F4
  else if k = "f5".toList then some .KEY_F5
  else if k = "f6".toList then some .KEY_F6
  else if k = "f7".toList then some .KEY_F7
  else if k = "f8".toList then some .KEY_F8
  else if k = "f9".toList then some .KEY_F9
  else if k = "f10".toList then some .KEY_F10
  else if k = "f11".toList then some .KEY_F11
  else if k = "f12".toList then some .KEY_F12
  else if k = "f13".toList then some .KEY_F13
  else if k = "f14".toList then some .KEY_F14
  else if k = "f15".toList then some .KEY_F15
  else if k = "f16".toList then some .KEY_F16
  else if k = "f17".toList then some .KEY_F17
  else if k = "f18".toList then some .KEY_F18
  else if k = "f19".toList then some .KEY_F19
  else if k = "f20".toList then some .KEY_F20
  else if k = "f21".toList then some .KEY_F21
  else if k = "f22".toList then some .KEY_F22
  else if k = "f23".toList then some .KEY_F23
  else if k = "f24".toList then some .KEY_F24
  else none

/-- `struct KeyBinding` of parse.rs. -/
structure KeyBinding where
  keysym : Key
  modifiers : List Modifier
  send : Bool
  on_release : Bool
deriving DecidableEq

/-- `impl PartialEq for KeyBinding` of parse.rs.  `Vec::contains` is the
(decidable) membership test. -/
def KeyBinding.beq (a b : KeyBinding) : Bool :=
  decide (a.keysym = b.keysym)
  && a.modifiers.all (fun modifier => decide (modifier ∈ b.modifiers))
  && decide (a.modifiers.length = b.modifiers.length)
  && decide (a.send = b.send)
  && decide (a.on_release = b.on_release)

/-- `enum ParseError` of parse.rs. -/
inductive ParseError where
  | UnknownSymbol (path : RStr) (line_nr : Nat)
  | InvalidModifier (path : RStr) (line_nr : Nat)
  | InvalidKeysym (path : RStr) (line_nr : Nat)
deriving DecidableEq

/-- `enum Error` of parse.rs.  The `Io(std::io::Error)` variant is modelled
without its payload (named `IoFailure` here); it is never constructed by the
embedded code. -/
inductive Error where
  | ConfigNotFound
  | IoFailure
  | InvalidConfig (e : ParseError)
deriving DecidableEq

/-- the local recursive `fn strip_prefix` inside `parse_keybinding`:
repeatedly peel a leading sigil character. -/
def strip_prefix : RStr → RStr
  | [] => []
  | c :: rest => if c == '@' || c == '~' then strip_prefix rest else c :: rest

/-- The two sigil flags computed from the last token by `parse_keybinding`,
as a pair `(on_release, send)`: exactly the two boolean expressions of the
source (`starts_with('@') || starts_with("~@")` and
`starts_with('~') || starts_with("@~")`). -/
def sigil_flags (last_token : RStr) : Bool × Bool :=
  (startsWithChar '@' last_token || startsWithSeq "~@".toList last_token,
   startsWithChar '~' last_token || startsWithSeq "@~".toList last_token)

/-- The modifier loop of `parse_keybinding`: resolve every given token,
failing fast with `InvalidModifier` on the first token that does not
resolve. -/
def collectModifiers (path : RStr) (line_nr : Nat) : List RStr → Except Error (List Modifier)
  | [] => .ok []
  | t :: rest =>
    match match_modifier t with
    | some m =>
      match collectModifiers path line_nr rest with
      | .ok ms => .ok (m :: ms)
      | .error e => .error e
    | none => .error (.InvalidConfig (.InvalidModifier path line_nr))

/-- `key.split('+').map(|x| x.trim()).collect()` of `parse_keybinding`. -/
def keyTokens (key : RStr) : List RStr :=
  (splitChar '+' key).map trimStr

/-- `parse_keybinding` of parse.rs. -/
def parse_keybinding (key : RStr) (line_nr : Nat) (path : RStr) : Except Error KeyBinding :=
  let tokens := keyTokens key
  match tokens.getLast? with
  | none => .error (.InvalidConfig (.UnknownSymbol path line_nr))
  | some last_token =>
    let on_release := (sigil_flags last_token).1
    let send := (sigil_flags last_token).2
    let keysym := match_keysym ( strip_prefix last_token)
    match collectModifiers path line_nr (tokens.take (tokens.length - 1)) with
    | .error e => .error e
    | .ok modifiers =>
      match keysym with
      | some k => .ok { keysym := k, modifiers := modifiers, send := send, on_release := on_release }
      | none => .error (.InvalidConfig (.UnknownSymbol path line_nr))

/-- `struct Config` of parse.rs; `PathBuf` is modelled as a raw string. -/
structure Config where
  path : RStr
  contents : RStr
  imports : List RStr
deriving DecidableEq

/-- A filesystem: a finite association list from paths to file texts. -/
abbrev Fs := List (RStr × RStr)

/-- Lookup of the first entry with the given path. -/
def fsLookup : Fs → RStr → Option RStr
  | [], _ => none
  | (p, s) :: rest, q => if q = p then some s else fsLookup rest q

/-- `load_file_contents` of parse.rs: a missing file is `ConfigNotFound`. -/
def load_file_contents (fs : Fs) (path : RStr) : Except Error RStr :=
  match fsLookup fs path with
  | none => .error .ConfigNotFound
  | some contents => .ok contents

/-- The line loop of `Config::get_imports`; `none` models the panic of
`line.split(' ').next().unwrap()`. -/
def get_imports_go : List RStr → List RStr → Option (List RStr)
  | [], imports => some imports
  | line :: rest, imports =>
    match (splitChar ' ' line).head? with
    | none => none
    | some first =>
      if first = IMPORT_STATEMENT then
        match (splitChar ' ' line)[1]? with
        | some import_path => get_imports_go rest (imports ++ [import_path])
        | none => get_imports_go rest imports
      else
        get_imports_go rest imports

/-- `Config::get_imports` of parse.rs.  The source's `Result` is the inner
`Except` (its body only ever returns `Ok`); the outer `Option` carries the
potential `unwrap` panic. -/
def Config.get_imports (contents : RStr) : Option (Except Error (List RStr)) :=
  (get_imports_go (rustLines contents) []).map Except.ok

/-- `Config::new` of parse.rs. -/
def Config.new (fs : Fs) (path : RStr) : Option (Except Error Config) :=
  match load_file_contents fs path with
  | .error e => some (.error e)
  | .ok contents =>
    match Config.get_imports contents with
    | none => none
    | some (.error e) => some (.error e)
    | some (.ok imports) => some (.ok { path := path, contents := contents, imports := imports })

/-- The import loop of `Config::load_to_configs`. -/
def load_to_configs_go (fs : Fs) : List RStr → List Config → Option (Except Error (List Config))
  | [], configs => some (.ok configs)
  | p :: rest, configs =>
    match Config.new fs p with
    | none => none
    | some (.error e) => some (.error e)
    | some (.ok cfg) => load_to_configs_go fs rest (configs ++ [cfg])

/-- `Config::load_to_configs` of parse.rs. -/
def Config.load_to_configs (fs : Fs) (c : Config) : Option (Except Error (List Config)) :=
  load_to_configs_go fs c.imports []

/-- `if !configs.contains(&import) { configs.push(import) }`, folded over a
list of loaded imports. -/
def pushNew : List Config → List Config → List Config
  | acc, [] => acc
  | acc, i :: rest => if i ∈ acc then pushNew acc rest else pushNew (acc ++ [i]) rest

/-- The snapshot loop of one pass of `Config::load_and_merge`: iterate the
snapshot taken by `configs.clone()`, pushing unseen imports into the live
list. -/
def pass_go (fs : Fs) : List Config → List Config → Option (Except Error (List Config))
  | [], acc => some (.ok acc)
  | c :: rest, acc =>
    match Config.load_to_configs fs c with
    | none => none
    | some (.error e) => some (.error e)
    | some (.ok imps) => pass_go fs rest (pushNew acc imps)

/-- One full iteration of the `while` body of `Config::load_and_merge`. -/
def mergePass (fs : Fs) (configs : List Config) : Option (Except Error (List Config)) :=
  pass_go fs configs configs

/-- The `while prev_count != current_count` loop of `Config::load_and_merge`:
run a pass; stop when the length did not change, otherwise repeat.  `fuel`
bounds the number of repeats; exhausting it yields `none`. -/
def lam_go (fs : Fs) (fuel : Nat) (configs : List Config) : Option (Except Error (List Config)) :=
  match mergePass fs configs with
  | none => none
  | some (.error e) => some (.error e)
  | some (.ok configs2) =>
    if configs2.length = configs.length then some (.ok configs2)
    else
      match fuel with
      | 0 => none
      | n + 1 => lam_go fs n configs2

/-- `Config::load_and_merge` of parse.rs.  With `prev_count = 0` and
`current_count = configs.len()`, the source loop is entered iff the seed is
non-empty. -/
def Config.load_and_merge (fuel : Nat) (fs : Fs) (configs : List Config) :
    Option (Except Error (List Config)) :=
  if configs.length = 0 then some (.ok configs) else lam_go fs fuel configs

/-- Every config a successful `Config::new` on `fs` can produce: at most one
per filesystem entry. -/
def allConfigs (fs : Fs) : List Config :=
  fs.filterMap (fun pr =>
    match Config.new fs pr.1 with
    | some (.ok c) => some c
    | _ => none)

/-- Invariant of the merge loop: the working set is the seed followed by
pairwise-distinct new configs, none already in the seed, all of them
loadable from `fs`. -/
def GoodExtra (fs : Fs) (seed extra : List Config) : Prop :=
  extra.Nodup ∧ ∀ c ∈ extra, c ∉ seed ∧ c ∈ allConfigs fs

/-- Whitespace-delimited tokens of a line (the reading of the words of the
specification: a maximal run of any whitespace separates tokens). -/
def wsTokens (line : RStr) : List RStr :=
  (splitBy Char.isWhitespace line).filter (fun t => !t.isEmpty)

/-- Import extraction as the specification's words describe it: the second
whitespace-delimited token of every line whose first whitespace-delimited
token is the include keyword. -/
def getImportsWsSpec (contents : RStr) : List RStr :=
  (rustLines contents).filterMap (fun line =>
    match wsTokens line with
    | first :: rest => if first = IMPORT_STATEMENT then rest.head? else none
    | [] => none)

/-- Import extraction as the code actually behaves: fields are produced by
splitting on the single space character with empty fields preserved; the
second field (possibly empty) of every line whose first field is the include
keyword. -/
def lineImport (line : RStr) : Option RStr :=
  match splitChar ' ' line with
  | first :: rest => if first = IMPORT_STATEMENT then rest.head? else none
  | [] => none

/-- The per-line description of `Config::get_imports`, folded over all
physical lines. -/
def importsSpec (contents : RStr) : List RStr :=
  (rustLines contents).filterMap lineImport

/-! ### Supporting lemmas -/

/-- `str::split` never yields an empty sequence of fields. -/
theorem splitBy_ne_nil (p : Char → Bool) (s : RStr) : splitBy p s ≠ [] := by
  induction s with
  | nil => simp [splitBy]
  | cons c rest ih =>
    simp only [splitBy]
    split
    · simp
    · split <;> simp

/-- The `get_imports` loop never hits its panic case and appends exactly the
per-line imports. -/
theorem get_imports_go_eq (ls : List RStr) :
    ∀ acc : List RStr, get_imports_go ls acc = some (acc ++ ls.filterMap lineImport) := by
  induction ls with
  | nil => intro acc; simp [get_imports_go]
  | cons line rest ih =>
    intro acc
    obtain ⟨first, rst, hs⟩ : ∃ a b, splitChar ' ' line = a :: b := by
      cases h : splitChar ' ' line with
      | nil => exact absurd h (splitBy_ne_nil _ _)
      | cons a b => exact ⟨a, b, rfl⟩
    cases rst with
    | nil =>
      by_cases hf : first = IMPORT_STATEMENT
      · simp [get_imports_go, hs, hf, lineImport, ih]
      · simp [get_imports_go, hs, hf, lineImport, ih]
    | cons x xs =>
      by_cases hf : first = IMPORT_STATEMENT
      · simp [get_imports_go, hs, hf, lineImport, ih]
      · simp [get_imports_go, hs, hf, lineImport, ih]

/-- `Config::get_imports` always succeeds with the per-line description. -/
theorem get_imports_eq (contents : RStr) :
    Config.get_imports contents = some (.ok (importsSpec contents)) := by
  simp [Config.get_imports, get_imports_go_eq, importsSpec]

/-- `Config::new` never panics: its only `Option`-failure would come from
`get_imports`, which always succeeds. -/
theorem config_new_ne_none (fs : Fs) (p : RStr) : Config.new fs p ≠ none := by
  unfold Config.new
  cases h : load_file_contents fs p with
  | error e => simp
  | ok contents => simp [get_imports_eq]

/-- A successful lookup means some filesystem entry carries the looked-up
path. -/
theorem fsLookup_mem {fs : Fs} {q s : RStr} (h : fsLookup fs q = some s) :
    ∃ pr ∈ fs, pr.1 = q := by
  induction fs with
  | nil => simp [fsLookup] at h
  | cons pr rest ih =>
    obtain ⟨p, t⟩ := pr
    by_cases hq : q = p
    · exact ⟨(p, t), by simp, by simp [hq]⟩
    · rw [fsLookup, if_neg hq] at h
      obtain ⟨pr2, hm, he⟩ := ih h
      exact ⟨pr2, by simp [hm], he⟩

/-- Every config produced by a successful `Config::new` is in `allConfigs`. -/
theorem new_mem_allConfigs {fs : Fs} {p : RStr} {c : Config}
    (h : Config.new fs p = some (.ok c)) : c ∈ allConfigs fs := by
  cases hlk : fsLookup fs p with
  | none =>
    rw [Config.new, load_file_contents, hlk] at h
    simp at h
  | some s =>
    obtain ⟨pr, hmem, hfst⟩ := fsLookup_mem hlk
    refine List.mem_filterMap.mpr ⟨pr, hmem, ?_⟩
    rw [hfst, h]

/-- The import loop of `load_to_configs` never panics. -/
theorem load_to_configs_go_ne_none (fs : Fs) (ps : List RStr) :
    ∀ acc : List Config, load_to_configs_go fs ps acc ≠ none := by
  induction ps with
  | nil => intro acc; simp [load_to_configs_go]
  | cons p rest ih =>
    intro acc
    cases h : Config.new fs p with
    | none => exact absurd h (config_new_ne_none fs p)
    | some r =>
      cases r with
      | error e => simp [load_to_configs_go, h]
      | ok cfg =>
        simp only [load_to_configs_go, h]
        exact ih _

/-- Configs collected by the import loop all come from `Config::new`. -/
theorem load_to_configs_go_mem (fs : Fs) (ps : List RStr) :
    ∀ acc out : List Config, load_to_configs_go fs ps acc = some (.ok out) →
      (∀ i ∈ acc, i ∈ allConfigs fs) → ∀ i ∈ out, i ∈ allConfigs fs := by
  induction ps with
  | nil =>
    intro acc out h hacc
    simp only [load_to_configs_go, Option.some.injEq, Except.ok.injEq] at h
    rw [← h]
    exact hacc
  | cons p rest ih =>
    intro acc out h hacc
    cases hn : Config.new fs p with
    | none => exact absurd hn (config_new_ne_none fs p)
    | some r =>
      cases r with
      | error e => rw [load_to_configs_go, hn] at h; simp at h
      | ok cfg =>
        rw [load_to_configs_go, hn] at h
        refine ih _ _ h ?_
        intro i hi
        rcases List.mem_append.mp hi with hi | hi
        · exact hacc i hi
        · rw [List.mem_singleton] at hi
          rw [hi]
          exact new_mem_allConfigs hn

/-- `Config::load_to_configs` never panics. -/
theorem load_to_configs_ne_none (fs : Fs) (c : Config) :
    Config.load_to_configs fs c ≠ none :=
  load_to_configs_go_ne_none fs c.imports []

/-- All configs returned by `Config::load_to_configs` are in `allConfigs`. -/
theorem load_to_configs_mem {fs : Fs} {c : Config} {imps : List Config}
    (h : Config.load_to_configs fs c = some (.ok imps)) :
    ∀ i ∈ imps, i ∈ allConfigs fs :=
  load_to_configs_go_mem fs c.imports [] imps h (by simp)

/-- Pushing loaded imports preserves the working-set invariant and never
shrinks the list. -/
theorem pushNew_good (fs : Fs) (seed : List Config) (imps : List Config) :
    ∀ acc extra : List Config, acc = seed ++ extra → GoodExtra fs seed extra →
      (∀ i ∈ imps, i ∈ allConfigs fs) →
      ∃ extra2, pushNew acc imps = seed ++ extra2 ∧ GoodExtra fs seed extra2 ∧
        extra.length ≤ extra2.length := by
  induction imps with
  | nil =>
    intro acc extra ha hg hi
    exact ⟨extra, by simp [pushNew, ha], hg, le_refl _⟩
  | cons i rest ih =>
    intro acc extra ha hg hi
    by_cases hmem : i ∈ acc
    · rw [pushNew, if_pos hmem]
      exact ih acc extra ha hg (fun x hx => hi x (by simp [hx]))
    · rw [pushNew, if_neg hmem]
      have hni : i ∉ seed ∧ i ∉ extra := by
        rw [ha, List.mem_append] at hmem
        push_neg at hmem
        exact hmem
      have ha2 : acc ++ [i] = seed ++ (extra ++ [i]) := by rw [ha, List.append_assoc]
      have hg2 : GoodExtra fs seed (extra ++ [i]) := by
        obtain ⟨hnd, hall⟩ := hg
        constructor
        · rw [List.nodup_append]
          refine ⟨hnd, List.nodup_singleton i, ?_⟩
          intro a hax hai
          rw [List.mem_singleton] at hai
          rw [hai] at hax
          exact hni.2 hax
        · intro c hc
          rcases List.mem_append.mp hc with hc | hc
          · exact hall c hc
          · rw [List.mem_singleton] at hc
            rw [hc]
            exact ⟨hni.1, hi i (by simp)⟩
      obtain ⟨extra2, h1, h2, h3⟩ :=
        ih (acc ++ [i]) (extra ++ [i]) ha2 hg2 (fun x hx => hi x (by simp [hx]))
      refine ⟨extra2, h1, h2, ?_⟩
      have hstep : extra.length ≤ (extra ++ [i]).length := by simp
      exact le_trans hstep h3

/-- The invariant bounds the number of non-seed configs by the number of
filesystem entries. -/
theorem goodExtra_length_le {fs : Fs} {seed extra : List Config}
    (hg : GoodExtra fs seed extra) : extra.length ≤ fs.length := by
  obtain ⟨hnd, hall⟩ := hg
  have hsub : extra ⊆ allConfigs fs := fun c hc => (hall c hc).2
  exact le_trans (hnd.subperm hsub).length_le (List.length_filterMap_le _ _)

/-- The snapshot loop of a pass never panics. -/
theorem pass_go_ne_none (fs : Fs) (snap : List Config) :
    ∀ acc : List Config, pass_go fs snap acc ≠ none := by
  induction snap with
  | nil => intro acc; simp [pass_go]
  | cons c rest ih =>
    intro acc
    cases h : Config.load_to_configs fs c with
    | none => exact absurd h (load_to_configs_ne_none fs c)
    | some r =>
      cases r with
      | error e => simp [pass_go, h]
      | ok imps =>
        simp only [pass_go, h]
        exact ih _

/-- A successful pass extends the working set and preserves the invariant. -/
theorem pass_go_good (fs : Fs) (seed : List Config) (snap : List Config) :
    ∀ acc extra out : List Config, pass_go fs snap acc = some (.ok out) →
      acc = seed ++ extra → GoodExtra fs seed extra →
      ∃ extra2, out = seed ++ extra2 ∧ GoodExtra fs seed extra2 ∧
        extra.length ≤ extra2.length := by
  induction snap with
  | nil =>
    intro acc extra out h ha hg
    simp only [pass_go, Option.some.injEq, Except.ok.injEq] at h
    exact ⟨extra, by rw [← h, ha], hg, le_refl _⟩
  | cons c rest ih =>
    intro acc extra out h ha hg
    cases hl : Config.load_to_configs fs c with
    | none => exact absurd hl (load_to_configs_ne_none fs c)
    | some r =>
      cases r with
      | error e => rw [pass_go, hl] at h; simp at h
      | ok imps =>
        rw [pass_go, hl] at h
        obtain ⟨extra1, h1, h2, h3⟩ :=
          pushNew_good fs seed imps acc extra ha hg (load_to_configs_mem hl)
        obtain ⟨extra2, h4, h5, h6⟩ := ih _ extra1 out h h1 h2
        exact ⟨extra2, h4, h5, le_trans h3 h6⟩

/-- One-step unfolding of the merge loop. -/
theorem lam_go_unfold (fs : Fs) (fuel : Nat) (configs : List Config) :
    lam_go fs fuel configs =
      match mergePass fs configs with
      | none => none
      | some (.error e) => some (.error e)
      | some (.ok configs2) =>
        if configs2.length = configs.length then some (.ok configs2)
        else
          match fuel with
          | 0 => none
          | n + 1 => lam_go fs n configs2 := by
  rw [lam_go]

/-- The merge loop terminates (with a result or an error) once the fuel
covers the number of configs the filesystem can still contribute. -/
theorem lam_go_isSome (fs : Fs) (seed : List Config) :
    ∀ (fuel : Nat) (extra configs : List Config), configs = seed ++ extra →
      GoodExtra fs seed extra → fs.length ≤ fuel + extra.length →
      (lam_go fs fuel configs).isSome = true := by
  intro fuel
  induction fuel with
  | zero =>
    intro extra configs hc hg hb
    rw [lam_go_unfold]
    cases hp : mergePass fs configs with
    | none => exact absurd hp (pass_go_ne_none fs configs configs)
    | some r =>
      cases r with
      | error e => simp
      | ok configs2 =>
        by_cases hlen : configs2.length = configs.length
        · simp [hlen]
        · exfalso
          obtain ⟨extra2, ho, hg2, hle⟩ :=
            pass_go_good fs seed configs configs extra configs2 hp hc hg
          have h1 : configs2.length = seed.length + extra2.length := by simp [ho]
          have h2 : configs.length = seed.length + extra.length := by simp [hc]
          have h3 : extra2.length ≤ fs.length := goodExtra_length_le hg2
          omega
  | succ n ih =>
    intro extra configs hc hg hb
    rw [lam_go_unfold]
    cases hp : mergePass fs configs with
    | none => exact absurd hp (pass_go_ne_none fs configs configs)
    | some r =>
      cases r with
      | error e => simp
      | ok configs2 =>
        by_cases hlen : configs2.length = configs.length
        · simp [hlen]
        · obtain ⟨extra2, ho, hg2, hle⟩ :=
            pass_go_good fs seed configs configs extra configs2 hp hc hg
          have h1 : configs2.length = seed.length + extra2.length := by simp [ho]
          have h2 : configs.length = seed.length + extra.length := by simp [hc]
          simp only [if_neg hlen]
          exact ih extra2 configs2 ho hg2 (by omega)

/-- A successful merge-loop result is the seed plus invariant-satisfying new
configs. -/
theorem lam_go_shape (fs : Fs) (seed : List Config) :
    ∀ (fuel : Nat) (extra configs out : List Config), configs = seed ++ extra →
      GoodExtra fs seed extra → lam_go fs fuel configs = some (.ok out) →
      ∃ extra2, out = seed ++ extra2 ∧ GoodExtra fs seed extra2 := by
  intro fuel
  induction fuel with
  | zero =>
    intro extra configs out hc hg h
    rw [lam_go_unfold] at h
    cases hp : mergePass fs configs with
    | none => exact absurd hp (pass_go_ne_none fs configs configs)
    | some r =>
      rw [hp] at h
      cases r with
      | error e => simp at h
      | ok configs2 =>
        by_cases hlen : configs2.length = configs.length
        · simp only [if_pos hlen, Option.some.injEq, Except.ok.injEq] at h
          obtain ⟨extra2, ho, hg2, _⟩ :=
            pass_go_good fs seed configs configs extra configs2 hp hc hg
          exact ⟨extra2, by rw [← h, ho], hg2⟩
        · simp [if_neg hlen] at h
  | succ n ih =>
    intro extra configs out hc hg h
    rw [lam_go_unfold] at h
    cases hp : mergePass fs configs with
    | none => exact absurd hp (pass_go_ne_none fs configs configs)
    | some r =>
      rw [hp] at h
      cases r with
      | error e => simp at h
      | ok configs2 =>
        by_cases hlen : configs2.length = configs.length
        · simp only [if_pos hlen, Option.some.injEq, Except.ok.injEq] at h
          obtain ⟨extra2, ho, hg2, _⟩ :=
            pass_go_good fs seed configs configs extra configs2 hp hc hg
          exact ⟨extra2, by rw [← h, ho], hg2⟩
        · simp only [if_neg hlen] at h
          obtain ⟨extra2, ho, hg2, _⟩ :=
            pass_go_good fs seed configs configs extra configs2 hp hc hg
          exact ih extra2 configs2 out ho hg2 h

/-- If every token resolves as a modifier, the modifier loop succeeds. -/
theorem collectModifiers_ok (path : RStr) (line_nr : Nat) (ts : List RStr)
    (h : ∀ t ∈ ts, (match_modifier t).isSome) :
    ∃ ms, collectModifiers path line_nr ts = .ok ms := by
  induction ts with
  | nil => exact ⟨[], rfl⟩
  | cons t rest ih =>
    obtain ⟨m, hm⟩ := Option.isSome_iff_exists.mp (h t (by simp))
    obtain ⟨ms, hms⟩ := ih (fun x hx => h x (by simp [hx]))
    exact ⟨m :: ms, by simp [collectModifiers, hm, hms]⟩

/-! ### Claim theorems -/

/-- C1 (counterexample): for the key string `"nope + xyz"` the stripped last
token `"xyz"` does not resolve in the keysym table, yet `parse_keybinding`
fails with `InvalidModifier`, not `UnknownSymbol`: the modifier loop runs
before the keysym failure is reported, so the claimed "regardless of what
the non-last tokens are" is false. -/
theorem c1_counterexample :
    match_keysym ( strip_prefix "xyz".toList) = none ∧
    parse_keybinding "nope + xyz".toList 3 "cfg".toList =
      .error (.InvalidConfig (.InvalidModifier "cfg".toList 3)) ∧
    parse_keybinding "nope + xyz".toList 3 "cfg".toList ≠
      .error (.InvalidConfig (.UnknownSymbol "cfg".toList 3)) :=
  ⟨by decide, by decide, by decide⟩

/-- C1 (amended): if the stripped last token does not resolve in the keysym
table AND every non-last token resolves in the modifier table, then
`parse_keybinding` fails with `UnknownSymbol` carrying the given path and
line number.  (An unresolvable non-last token is reported first, as
`InvalidModifier`.) -/
theorem c1_unknown_symbol_when_modifiers_valid (key : RStr) (line_nr : Nat) (path : RStr)
    (lt : RStr)
    (hlast : (keyTokens key).getLast? = some lt)
    (hkeysym : match_keysym ( strip_prefix lt) = none)
    (hmods : ∀ t ∈ (keyTokens key).take ((keyTokens key).length - 1),
      (match_modifier t).isSome) :
    parse_keybinding key line_nr path = .error (.InvalidConfig (.UnknownSymbol path line_nr)) := by
  obtain ⟨ms, hms⟩ := collectModifiers_ok path line_nr _ hmods
  simp [parse_keybinding, hlast, hms, hkeysym]

/-- C1 (witness): the amended theorem applies to `"super + xyz"`. -/
theorem c1_witness :
    (keyTokens "super + xyz".toList).getLast? = some "xyz".toList ∧
    match_keysym ( strip_prefix "xyz".toList) = none ∧
    (∀ t ∈ (keyTokens "super + xyz".toList).take
        ((keyTokens "super + xyz".toList).length - 1), (match_modifier t).isSome) ∧
    parse_keybinding "super + xyz".toList 7 "cfg".toList =
      .error (.InvalidConfig (.UnknownSymbol "cfg".toList 7)) :=
  ⟨by decide, by decide, by decide,
    c1_unknown_symbol_when_modifiers_valid "super + xyz".toList 7 "cfg".toList
      "xyz".toList (by decide) (by decide) (by decide)⟩

/-- C2 (counterexample): with a duplicated modifier the source equality is
not symmetric and is not set-based: `{Q, [Super, Super]}` compares equal to
`{Q, [Super, Shift]}` (every element of the first list occurs in the second
and the lengths agree) although their modifier sets differ, and the
comparison in the opposite order yields false. -/
theorem c2_counterexample :
    KeyBinding.beq ⟨.KEY_Q, [.Super, .Super], false, false⟩
      ⟨.KEY_Q, [.Super, .Shift], false, false⟩ = true ∧
    KeyBinding.beq ⟨.KEY_Q, [.Super, .Shift], false, false⟩
      ⟨.KEY_Q, [.Super, .Super], false, false⟩ = false :=
  ⟨by decide, by decide⟩

/-- C2 (amended): KeyBinding equality is exact on keysym/send/on_release and
checks that every left modifier occurs on the right together with equal
lengths; when both modifier lists are duplicate-free this coincides with
set equality of the modifier collections (and is then symmetric).  With
duplicates the relation is not symmetric (see the counterexample). -/
theorem c2_beq_set_equality_of_nodup (a b : KeyBinding)
    (ha : a.modifiers.Nodup) (hb : b.modifiers.Nodup) :
    KeyBinding.beq a b = true ↔
      (a.keysym = b.keysym ∧ a.send = b.send ∧ a.on_release = b.on_release ∧
        ∀ m, m ∈ a.modifiers ↔ m ∈ b.modifiers) := by
  unfold KeyBinding.beq
  simp only [Bool.and_eq_true, decide_eq_true_eq, List.all_eq_true]
  constructor
  · rintro ⟨⟨⟨⟨h1, h2⟩, h3⟩, h4⟩, h5⟩
    refine ⟨h1, h4, h5, ?_⟩
    have hsub : a.modifiers.toFinset ⊆ b.modifiers.toFinset := by
      intro m hm
      rw [List.mem_toFinset] at hm ⊢
      exact h2 m hm
    have hcard : b.modifiers.toFinset.card ≤ a.modifiers.toFinset.card := by
      rw [List.toFinset_card_of_nodup ha, List.toFinset_card_of_nodup hb, h3]
    have heq := Finset.eq_of_subset_of_card_le hsub hcard
    intro m
    constructor
    · exact h2 m
    · intro hm
      rw [← List.mem_toFinset, ← heq, List.mem_toFinset] at hm
      exact hm
  · rintro ⟨h1, h4, h5, hm⟩
    have heq : a.modifiers.toFinset = b.modifiers.toFinset := by
      ext m
      rw [List.mem_toFinset, List.mem_toFinset]
      exact hm m
    have hlen : a.modifiers.length = b.modifiers.length := by
      rw [← List.toFinset_card_of_nodup ha, ← List.toFinset_card_of_nodup hb, heq]
    exact ⟨⟨⟨⟨h1, fun m hmm => (hm m).mp hmm⟩, hlen⟩, h4⟩, h5⟩

/-- C2 (witness): the amended theorem applies to two bindings whose
duplicate-free modifier lists are permutations of each other. -/
theorem c2_witness :
    ([Modifier.Super, Modifier.Shift]).Nodup ∧
    ([Modifier.Shift, Modifier.Super]).Nodup ∧
    (KeyBinding.beq ⟨.KEY_Q, [.Super, .Shift], true, false⟩
        ⟨.KEY_Q, [.Shift, .Super], true, false⟩ = true ↔
      ((⟨.KEY_Q, [.Super, .Shift], true, false⟩ : KeyBinding).keysym =
          (⟨.KEY_Q, [.Shift, .Super], true, false⟩ : KeyBinding).keysym ∧
        (⟨.KEY_Q, [.Super, .Shift], true, false⟩ : KeyBinding).send =
          (⟨.KEY_Q, [.Shift, .Super], true, false⟩ : KeyBinding).send ∧
        (⟨.KEY_Q, [.Super, .Shift], true, false⟩ : KeyBinding).on_release =
          (⟨.KEY_Q, [.Shift, .Super], true, false⟩ : KeyBinding).on_release ∧
        ∀ m, m ∈ (⟨.KEY_Q, [.Super, .Shift], true, false⟩ : KeyBinding).modifiers ↔
          m ∈ (⟨.KEY_Q, [.Shift, .Super], true, false⟩ : KeyBinding).modifiers)) :=
  ⟨by decide, by decide,
    c2_beq_set_equality_of_nodup ⟨.KEY_Q, [.Super, .Shift], true, false⟩
      ⟨.KEY_Q, [.Shift, .Super], true, false⟩ (by decide) (by decide)⟩

/-- C3: for every finite filesystem and every seed list of configs,
`Config::load_and_merge` terminates — a fuel of `fs.length + 1` loop
iterations always suffices to reach either the fixpoint (a pass that adds no
new structurally-distinct config, which ends the loop) or an error, because
the number of length-increasing passes is bounded by the number of distinct
configs the filesystem can contribute.  `isSome` states that the modelled
loop never exhausts this budget, i.e. the source's unbounded loop
terminates, cycles and diamonds included. -/
theorem c3_load_and_merge_terminates (fs : Fs) (seed : List Config) :
    (Config.load_and_merge (fs.length + 1) fs seed).isSome = true := by
  unfold Config.load_and_merge
  by_cases h0 : seed.length = 0
  · rw [if_pos h0]
    rfl
  · rw [if_neg h0]
    exact lam_go_isSome fs seed (fs.length + 1) [] seed (by simp)
      ⟨List.nodup_nil, by simp⟩ (by omega)

/-- C4 (counterexample): the claim fails for a seed that itself contains two
structurally-equal configs — `load_and_merge` never deduplicates the seed,
only the configs it adds, so the duplicates survive to the output. -/
theorem c4_counterexample :
    Config.load_and_merge 1 [] [⟨"a".toList, [], []⟩, ⟨"a".toList, [], []⟩] =
      some (.ok [⟨"a".toList, [], []⟩, ⟨"a".toList, [], []⟩]) ∧
    ¬ ([⟨"a".toList, [], []⟩, ⟨"a".toList, [], []⟩] : List Config).Nodup :=
  ⟨by decide, by decide⟩

/-- C4 (amended): if the seed list is itself duplicate-free, then for every
filesystem and fuel on which `Config::load_and_merge` succeeds, the returned
list contains no two structurally-equal `Config` values (every added config
is checked against the working set before being pushed). -/
theorem c4_result_nodup_of_seed_nodup (fuel : Nat) (fs : Fs) (seed out : List Config)
    (hnd : seed.Nodup) (h : Config.load_and_merge fuel fs seed = some (.ok out)) :
    out.Nodup := by
  unfold Config.load_and_merge at h
  by_cases h0 : seed.length = 0
  · rw [if_pos h0] at h
    simp only [Option.some.injEq, Except.ok.injEq] at h
    rw [← h]
    exact hnd
  · rw [if_neg h0] at h
    obtain ⟨extra2, ho, hg⟩ :=
      lam_go_shape fs seed fuel [] seed out (by simp) ⟨List.nodup_nil, by simp⟩ h
    rw [ho, List.nodup_append]
    exact ⟨hnd, hg.1, fun a ha hax => (hg.2 a hax).1 ha⟩

/-- C4 (witness): the amended theorem applies to a singleton seed on the
empty filesystem. -/
theorem c4_witness :
    ([⟨"a".toList, [], []⟩] : List Config).Nodup ∧
    Config.load_and_merge 1 [] [⟨"a".toList, [], []⟩] =
      some (.ok [⟨"a".toList, [], []⟩]) ∧
    ([⟨"a".toList, [], []⟩] : List Config).Nodup :=
  ⟨by decide, by decide,
    c4_result_nodup_of_seed_nodup 1 [] [⟨"a".toList, [], []⟩] [⟨"a".toList, [], []⟩]
      (by decide) (by decide)⟩

/-- C5: `join_lines` on the empty sequence is NOT special-cased to return the
empty sequence — the source unconditionally evaluates `lines[0]`, which
panics on an empty vector (modelled as `none`). -/
theorem c5_join_lines_empty_panics : join_lines ([] : List Line) = none := rfl

/-- C6 (counterexample): tokens are split on the single space character, not
on whitespace.  On the line `"include\tx"` the first whitespace-delimited
token is the include keyword and the second is `"x"`, so the claim predicts
`["x"]`; the code splits on spaces only, sees one field `"include\tx"`, and
returns no import. -/
theorem c6_counterexample :
    Config.get_imports "include\tx".toList = some (.ok []) ∧
    getImportsWsSpec "include\tx".toList = ["x".toList] ∧
    Config.get_imports "include\tx".toList ≠
      some (.ok (getImportsWsSpec "include\tx".toList)) :=
  ⟨by decide, by decide, by decide⟩

/-- C6 (amended): for every contents string, `Config::get_imports` returns
exactly, in order, the second field (taken verbatim, possibly the empty
string) of every physical line — comment lines included — whose first field
equals the include keyword, where fields are produced by splitting the line
on the single space character with empty fields preserved (tabs are not
delimiters); include lines with no second field contribute nothing. -/
theorem c6_get_imports_space_fields (contents : RStr) :
    Config.get_imports contents = some (.ok (importsSpec contents)) :=
  get_imports_eq contents

/-- C7: parsing `"super + shift + ~@q"` and `"super + shift + @~q"` both
succeed with `on_release = true`, `send = true`, keysym `Q` and modifiers
`[Super, Shift]`; and `strip_prefix` removes any number of leading sigil
characters before keysym lookup. -/
theorem c7_sigils_combined_and_stripped :
    parse_keybinding "super + shift + ~@q".toList 1 "cfg".toList =
      .ok ⟨.KEY_Q, [.Super, .Shift], true, true⟩ ∧
    parse_keybinding "super + shift + @~q".toList 1 "cfg".toList =
      .ok ⟨.KEY_Q, [.Super, .Shift], true, true⟩ ∧
    ∀ t : RStr, strip_prefix ('@' :: t) = strip_prefix t ∧
      strip_prefix ('~' :: t) = strip_prefix t :=
  ⟨by decide, by decide, fun t => ⟨rfl, rfl⟩⟩

/-- C8: on the six-line example text, `load_to_lines` followed by
`join_lines` yields exactly the four expected logical lines, with `Other`
lines discarded, 1-based numbering, and joined lines keeping the number of
their first constituent physical line. -/
theorem c8_pipeline_example :
    join_lines (load_to_lines "super + b\n    b\nsuper + \\\na\n    a\\\n    a".toList) =
      some [⟨"super + b".toList, .Key, 1⟩, ⟨"b".toList, .Command, 2⟩,
            ⟨"super + a".toList, .Key, 3⟩, ⟨"aa".toList, .Command, 5⟩] := by
  decide

/-- C9: `Config::get_imports` always returns `Ok` (its body constructs no
error), and its internal `unwrap` of the first split field never panics,
because splitting a line on a space always yields at least one field. -/
theorem c9_get_imports_total (contents : RStr) :
    ∃ imports, Config.get_imports contents = some (.ok imports) :=
  ⟨importsSpec contents, get_imports_eq contents⟩

/-- C10: on `"super + @@~q"` the parse succeeds with keysym `Q`,
`on_release = true` and `send = false` (the third and later sigil characters
of the last token do not affect the flags, which depend only on the first
two characters, while keysym lookup still strips all leading sigils). -/
theorem c10_flags_from_first_two_chars :
    parse_keybinding "super + @@~q".toList 1 "cfg".toList =
      .ok ⟨.KEY_Q, [.Super], false, true⟩ ∧
    ∀ (a b : Char) (r r2 : List Char), sigil_flags (a :: b :: r) = sigil_flags (a :: b :: r2) := by
  refine ⟨by decide, ?_⟩
  intro a b r r2
  have h1 : "~@".toList = ['~', '@'] := rfl
  have h2 : "@~".toList = ['@', '~'] := rfl
  have h3 : ∀ (x y : Char) (l : List Char), (x :: y :: l).take 2 = [x, y] := fun x y l => rfl
  simp [sigil_flags, startsWithChar, startsWithSeq, h1, h2, h3]
